import Mathlib

/-!
# TinyLink backend — verification of the allocation/resolution core

Shallow embedding of the TinyLink URL-shortener backend (Node/Express +
PostgreSQL).  The embedded pieces are:

* `validators.js` — `isValidCode`, `isValidEmail`, `isValidUrl`;
* the `links` table of the migration schema (UNIQUE `code`, the
  `code_format` CHECK constraint, `total_clicks DEFAULT 0`);
* `routes/links.js` — the `GET /api/links`, `POST /api/links` handlers;
* `index.js` — the `GET /:code` redirect handler.

Database state is a list of rows; timestamps are abstract ticks (`Nat`).
Every handler is a pure function from its inputs, the current database
state and the ambient nondeterminism (clock tick, serial id, the random
value consumed by the code generator) to a result that also records the
list of SQL statements the handler issued, so that statement-level
atomicity and interleavings can be reasoned about.
-/

/-- One character of the short-code character class `[A-Za-z0-9]`
 (the regex in `isValidCode`, src/src/validators.js). -/
def isCodeChar (c : Char) : Bool :=
  ('A' ≤ c && c ≤ 'Z') || ('a' ≤ c && c ≤ 'z') || ('0' ≤ c && c ≤ '9')

/-- Operational matcher for the anchored regex `^[A-Za-z0-9]{6,8}$`:
consume up to 8 class characters and accept at the end of the input when
at least 6 were consumed; `n` counts the characters consumed so far. -/
def matchCodeFrom : Nat → List Char → Bool
  | n, [] => decide (6 ≤ n)
  | n, c :: cs => if n < 8 && isCodeChar c then matchCodeFrom (n + 1) cs else false

/-- `isValidCode` from src/src/validators.js:
`/^[A-Za-z0-9]{6,8}$/.test(code)`. -/
def isValidCode (code : String) : Bool :=
  matchCodeFrom 0 code.toList

/-- Split a character list at every occurrence of `sep` (the groups keep
their order; `n` separators yield `n + 1` groups). -/
def splitOnChar (sep : Char) : List Char → List (List Char)
  | [] => [[]]
  | c :: cs =>
    let r := splitOnChar sep cs
    if c == sep then [] :: r
    else
      match r with
      | [] => [[c]]
      | g :: gs => (c :: g) :: gs

/-- `isValidEmail` from src/src/validators.js:
`/^[^\s@]+@[^\s@]+\.[^\s@]+$/.test(email)`.  The string must split at a
unique `@` into a nonempty whitespace-free local part and a
whitespace-free domain containing a `.` at an inner position (the
backtracking regex accepts the domain iff some dot has at least one
character on each side). -/
def isValidEmail (email : String) : Bool :=
  match splitOnChar '@' email.toList with
  | [a, b] =>
    !a.isEmpty && a.all (fun c => !c.isWhitespace) &&
    !b.isEmpty && b.all (fun c => !c.isWhitespace) &&
    ((b.drop 1).dropLast.contains '.')
  | _ => false

/-- ASCII lowercasing of one character. -/
def asciiLower (c : Char) : Char :=
  if 'A' ≤ c && c ≤ 'Z' then Char.ofNat (c.toNat + 32) else c

/-- Whether the second list starts with the first. -/
def listStartsWith : List Char → List Char → Bool
  | [], _ => true
  | _ :: _, [] => false
  | p :: ps, c :: cs => p == c && listStartsWith ps cs

/-- `isValidUrl` from src/src/validators.js: `new URL(u)` must parse with
protocol `http:` or `https:`.  The WHATWG parser is modelled only to the
extent the claims exercise it: the parse yields an `http:`/`https:`
protocol exactly when the string starts (ASCII case-insensitively) with
`http://` or `https://` followed by a nonempty remainder. -/
def isValidUrl (u : String) : Bool :=
  let lower := u.toList.map asciiLower
  (listStartsWith ['h', 't', 't', 'p', ':', '/', '/'] lower &&
    decide (7 < u.length)) ||
  (listStartsWith ['h', 't', 't', 'p', 's', ':', '/', '/'] lower &&
    decide (8 < u.length))

/-- The digit characters `0-9a-z` that JavaScript
`Number.prototype.toString(36)` prints: `48 + d` is `'0'..'9'`,
`87 + d` is `'a'..'z'`. -/
def base36DigitChar (d : Nat) : Char :=
  if d < 10 then Char.ofNat (48 + d) else Char.ofNat (87 + d)

/-- Fractional base-36 digits of `k / 2 ^ 53` (the value set of
`Math.random()`), emitted until the remainder is zero.  Doubles are
dyadic rationals and `2 ∣ 36`, so the expansion terminates within 27
digits and carries no trailing zeros; the `fuel` argument (54 at the call
site) only drives the recursion. -/
def base36FracDigits : Nat → Nat → List Char
  | _, 0 => []
  | k, fuel + 1 =>
    if k = 0 then []
    else base36DigitChar (k * 36 / 2 ^ 53) ::
      base36FracDigits (k * 36 % 2 ^ 53) fuel

/-- JavaScript `x.toString(36)` for `x = k / 2 ^ 53` in `[0, 1)`: `"0"`
for zero, otherwise `"0."` followed by the fractional digits. -/
def jsToString36 (k : Nat) : List Char :=
  if k = 0 then ['0'] else '0' :: '.' :: base36FracDigits k 54

/-- The code generator of the POST handler (src/src/routes/links.js
line 53): `Math.random().toString(36).slice(2, 10)`, as a function of the
numerator `k` of the random double `k / 2 ^ 53`.  `slice(2, 10)` keeps at
most 8 characters starting at index 2. -/
def genCode (k : Nat) : String :=
  String.mk (((jsToString36 k).drop 2).take 8)

/-- A row of the `links` table (migration schema): `id SERIAL`,
`code VARCHAR(8) UNIQUE`, `target_url`, `email`,
`total_clicks INTEGER DEFAULT 0`, `last_clicked` (nullable),
`created_at`. -/
structure Link where
  id : Nat
  code : String
  target_url : String
  email : String
  total_clicks : Nat
  last_clicked : Option Nat
  created_at : Nat
deriving DecidableEq

/-- `SELECT ... FROM links WHERE code=$1`: the first row keyed by
`code` (the schema keeps `code` unique, so at most one row matches). -/
def findByCode (db : List Link) (code : String) : Option Link :=
  db.find? (fun l => l.code == code)

/-- Effect of the single statement `UPDATE links SET total_clicks =
total_clicks + 1, last_clicked = now() WHERE code=$1`
 (src/unnamed/part_000 line 38), `now` being the commit tick. -/
def bumpVisit (now : Nat) (db : List Link) (code : String) : List Link :=
  db.map fun l =>
    if l.code == code then
      { l with total_clicks := l.total_clicks + 1, last_clicked := some now }
    else l

/-- Effect of `DELETE FROM links WHERE code=$1`
 (src/src/routes/links.js line 97). -/
def deleteByCode (db : List Link) (code : String) : List Link :=
  db.filter (fun l => l.code != code)

/-- The SQL statements the embedded handlers issue, recorded so that
statement traces and interleavings can be reasoned about. -/
inductive Query where
  | selectTarget : String → Query
  | updateCounters : String → Query
  | insertRow : String → String → String → Query
deriving DecidableEq

/-- Outcome of the redirect handler: HTTP status, the `Location` target
when redirecting, the database state after the handler's statements, and
the statements it issued. -/
structure RedirectResult where
  status : Nat
  location : Option String
  db : List Link
  trace : List Query
deriving DecidableEq

/-- The `GET /:code` redirect handler (src/unnamed/part_000 lines 32-40)
with its interleaving point exposed: the handler issues `SELECT
target_url` and, when a row was found, a later separate `UPDATE`
statement; `dbAtSelect` and `dbAtUpdate` are the database states those
two statements respectively run against (other requests may commit in
between). -/
def redirectExec (now : Nat) (dbAtSelect dbAtUpdate : List Link)
    (code : String) : RedirectResult :=
  match findByCode dbAtSelect code with
  | none => ⟨404, none, dbAtUpdate, [Query.selectTarget code]⟩
  | some l =>
    ⟨302, some l.target_url, bumpVisit now dbAtUpdate code,
      [Query.selectTarget code, Query.updateCounters code]⟩

/-- The redirect handler in an execution where nothing else commits
between its SELECT and its UPDATE. -/
def redirectHandler (now : Nat) (db : List Link) (code : String) :
    RedirectResult :=
  redirectExec now db db code

/-- Store-side failure modes of `INSERT INTO links`: `23505`
unique_violation on the UNIQUE `code` column, and a row-constraint
rejection (the `code_format` CHECK `^[A-Za-z0-9]{6,8}$`, or VARCHAR(8)
overflow) for a code outside the lexical contract.  Row constraints are
checked before the unique index is touched. -/
inductive DBErr where
  | uniqueViolation : DBErr
  | constraintViolation : DBErr
deriving DecidableEq

/-- `INSERT INTO links (code, target_url, email) VALUES ($1, $2, $3)`
against the schema: `total_clicks` defaults to 0, `last_clicked` to
NULL, `created_at` to `now()`, `id` to the next serial value.  The
insert either fails without side effects or appends the new row. -/
def insertLink (now id : Nat) (db : List Link) (code url email : String) :
    Except DBErr (Link × List Link) :=
  if !isValidCode code then .error .constraintViolation
  else if (findByCode db code).isSome then .error .uniqueViolation
  else
    let l : Link := ⟨id, code, url, email, 0, none, now⟩
    .ok (l, db ++ [l])

/-- JavaScript truthiness of an optional string (`if (finalCode)`,
`if (email)`): `undefined` and `""` are both falsy. -/
def truthyStr (s : Option String) : Option String :=
  match s with
  | none => none
  | some s => if s == "" then none else some s

/-- Outcome of the POST handler: HTTP status, the returned row (201
only), the error message (non-201), the database state afterwards, and
the statements issued. -/
structure PostResult where
  status : Nat
  row : Option Link
  err : Option String
  db : List Link
  trace : List Query
deriving DecidableEq

/-- The insert attempt of the POST handler with its error mapping
 (src/src/routes/links.js lines 56-74): 201 with the RETURNING row,
409 on error code `23505`, 500 on any other store failure. -/
def attemptInsert (now id : Nat) (db : List Link) (code url email : String) :
    PostResult :=
  match insertLink now id db code url email with
  | .ok (l, db') => ⟨201, some l, none, db', [Query.insertRow code url email]⟩
  | .error .uniqueViolation =>
    ⟨409, none, some "Custom code already in use", db,
      [Query.insertRow code url email]⟩
  | .error .constraintViolation =>
    ⟨500, none, some "internal error", db, [Query.insertRow code url email]⟩

/-- The `POST /api/links` handler (src/src/routes/links.js lines 32-75).
`gen` is the candidate `Math.random().toString(36).slice(2, 10)` yields
on this invocation; `now` and `id` are the store's clock tick and next
serial value. -/
def postLinks (gen : String) (now id : Nat) (db : List Link)
    (url : String) (code : Option String) (email : String) : PostResult :=
  if !isValidUrl url then ⟨400, none, some "Invalid URL", db, []⟩
  else if !isValidEmail email then ⟨400, none, some "Invalid email", db, []⟩
  else
    match truthyStr code with
    | some c =>
      if !isValidCode c then
        ⟨400, none, some "Custom code must be 6-8 alphanumeric characters",
          db, []⟩
      else attemptInsert now id db c url email
    | none => attemptInsert now id db gen url email

/-- The `ORDER BY created_at DESC` comparison. -/
def createdDesc (a b : Link) : Prop :=
  b.created_at ≤ a.created_at

instance : DecidableRel createdDesc :=
  fun a b => inferInstanceAs (Decidable (b.created_at ≤ a.created_at))

instance : IsTotal Link createdDesc :=
  ⟨fun a b => Nat.le_total b.created_at a.created_at⟩

instance : IsTrans Link createdDesc :=
  ⟨fun _ _ _ hab hbc => Nat.le_trans hbc hab⟩

/-- The `GET /api/links` handler (src/src/routes/links.js lines 7-29):
with a truthy `email` query parameter, the rows of that owner; with no
 (or an empty) parameter, all rows; both `ORDER BY created_at DESC`. -/
def getLinks (emailQ : Option String) (db : List Link) : List Link :=
  match truthyStr emailQ with
  | some e => List.insertionSort createdDesc (db.filter (fun l => l.email == e))
  | none => List.insertionSort createdDesc db

/-- One value of a JSON response row built by `pg`. -/
inductive ColVal where
  | nat : Nat → ColVal
  | str : String → ColVal
  | nullable : Option Nat → ColVal
deriving DecidableEq

/-- The JSON row `pg` builds for the output column list `id, code,
target_url AS url, email, total_clicks, last_clicked, created_at`
 (shared verbatim by the POST RETURNING clause and both SELECTs of
src/src/routes/links.js): keys are the output column names as written. -/
def selectRow (l : Link) : List (String × ColVal) :=
  [("id", .nat l.id), ("code", .str l.code), ("url", .str l.target_url),
   ("email", .str l.email), ("total_clicks", .nat l.total_clicks),
   ("last_clicked", .nullable l.last_clicked),
   ("created_at", .nat l.created_at)]

/-- Output column names of the POST handler's RETURNING clause
 (src/src/routes/links.js line 60). -/
def returningColumnsPost : List String :=
  ["id", "code", "url", "email", "total_clicks", "last_clicked", "created_at"]

/-- Output column names of the listing SELECT
 (src/src/routes/links.js lines 14 and 20). -/
def selectColumnsListing : List String :=
  ["id", "code", "url", "email", "total_clicks", "last_clicked", "created_at"]

/-- Output column names of the detail SELECT
 (src/src/routes/links.js line 82). -/
def selectColumnsDetail : List String :=
  ["id", "code", "url", "email", "total_clicks", "last_clicked", "created_at"]

/-- The field-name list the spec claims for the HTTP boundary (§6),
stated from the spec's words for comparison with the lists above. -/
def specClaimedColumns : List String :=
  ["code", "url", "email", "totalClicks", "lastClicked", "createdAt"]

/-- The state-changing operations of the service, for invariants across
a link's lifecycle: creation (POST), a redirect visit, deletion. -/
inductive Op where
  | create : String → Nat → Nat → String → Option String → String → Op
  | visit : Nat → String → Op
  | remove : String → Op

/-- State effect of one operation. -/
def applyOp (db : List Link) : Op → List Link
  | .create gen now id url code email => (postLinks gen now id db url code email).db
  | .visit now code => (redirectHandler now db code).db
  | .remove code => deleteByCode db code

/-- Statement-level effect of one timed query on the table: each SQL
statement commits atomically; SELECTs leave the state unchanged.  (The
interleaving lemma below restricts traces to resolution statements, so
`insertRow` is never replayed through this function.) -/
def applyStmt (db : List Link) : Nat × Query → List Link
  | (now, .updateCounters c) => bumpVisit now db c
  | (_, .selectTarget _) => db
  | (_, .insertRow _ _ _) => db

/-- Whether a statement is the resolution UPDATE on code `c`. -/
def isUpdateOn (c : String) : Query → Bool
  | .updateCounters c' => c' == c
  | _ => false

/-- Whether a statement is one of the two resolution statements on `c`. -/
def isResolutionStmtOn (c : String) : Query → Bool
  | .selectTarget c' => c' == c
  | .updateCounters c' => c' == c
  | _ => false

/-- Number of counter updates on `c` in a timed statement trace. -/
def countUpdatesOn (c : String) (qs : List (Nat × Query)) : Nat :=
  qs.countP (fun tq => isUpdateOn c tq.2)

/-! ## Helper lemmas -/

/-- Unfolding of the keyed lookup over a cons cell. -/
theorem findByCode_cons (x : Link) (xs : List Link) (c : String) :
    findByCode (x :: xs) c = if x.code = c then some x else findByCode xs c := by
  by_cases h : x.code = c
  · simp [findByCode, List.find?_cons, h]
  · simp [findByCode, List.find?_cons, h]

/-- The matcher for `^[A-Za-z0-9]{6,8}$`, started after `n ≤ 8` consumed
characters, accepts iff the total length lands in `[6, 8]` and every
remaining character is in the class. -/
theorem matchCodeFrom_iff : ∀ (cs : List Char) (n : Nat), n ≤ 8 →
    (matchCodeFrom n cs = true ↔
      6 ≤ n + cs.length ∧ n + cs.length ≤ 8 ∧ ∀ c ∈ cs, isCodeChar c = true) := by
  intro cs
  induction cs with
  | nil =>
    intro n hn
    simp [matchCodeFrom]
    omega
  | cons c cs ih =>
    intro n hn
    by_cases h8 : n < 8
    · by_cases hc : isCodeChar c = true
      · rw [show matchCodeFrom n (c :: cs) = matchCodeFrom (n + 1) cs from by
          simp [matchCodeFrom, h8, hc]]
        rw [ih (n + 1) (by omega)]
        simp only [List.length_cons, List.mem_cons]
        constructor
        · rintro ⟨h1, h2, h3⟩
          refine ⟨by omega, by omega, ?_⟩
          rintro x (rfl | hx)
          · exact hc
          · exact h3 x hx
        · rintro ⟨h1, h2, h3⟩
          exact ⟨by omega, by omega, fun x hx => h3 x (Or.inr hx)⟩
      · have hz : matchCodeFrom n (c :: cs) = false := by
          simp [matchCodeFrom, hc]
        rw [hz]
        apply iff_of_false (by simp)
        rintro ⟨h1, h2, h3⟩
        exact hc (h3 c (List.mem_cons_self c cs))
    · have hz : matchCodeFrom n (c :: cs) = false := by
        simp [matchCodeFrom, h8]
      rw [hz]
      apply iff_of_false (by simp)
      rintro ⟨h1, h2, h3⟩
      rw [List.length_cons] at h2
      omega

/-- `isValidCode` in declarative form. -/
theorem isValidCode_iff (s : String) :
    isValidCode s = true ↔
      6 ≤ s.length ∧ s.length ≤ 8 ∧ ∀ c ∈ s.toList, isCodeChar c = true := by
  have h := matchCodeFrom_iff s.toList 0 (by omega)
  simp only [Nat.zero_add] at h
  exact h

/-- A row found in a prefix is still the row found after an append. -/
theorem findByCode_append_of_some {db : List Link} {c : String} {l : Link}
    (h : findByCode db c = some l) (db2 : List Link) :
    findByCode (db ++ db2) c = some l := by
  induction db with
  | nil => simp [findByCode] at h
  | cons x xs ih =>
    rw [findByCode_cons] at h
    rw [List.cons_append, findByCode_cons]
    by_cases hx : x.code = c
    · rw [if_pos hx] at h
      rw [if_pos hx]
      exact h
    · rw [if_neg hx] at h
      rw [if_neg hx]
      exact ih h

/-- The visit UPDATE rewrites no row's `code`, so a lookup through
`bumpVisit` is the original lookup with the matching row bumped. -/
theorem findByCode_bumpVisit (t : Nat) (db : List Link) (c0 c : String) :
    findByCode (bumpVisit t db c0) c =
      (findByCode db c).map fun l =>
        if l.code == c0 then
          { l with total_clicks := l.total_clicks + 1, last_clicked := some t }
        else l := by
  induction db with
  | nil => rfl
  | cons x xs ih =>
    simp only [bumpVisit, List.map_cons] at ih ⊢
    rw [findByCode_cons, findByCode_cons]
    have hcode : (if (x.code == c0) = true then
        { x with total_clicks := x.total_clicks + 1, last_clicked := some t }
      else x).code = x.code := by
      split <;> rfl
    by_cases hx : x.code = c
    · rw [if_pos (by rw [hcode]; exact hx), if_pos hx]
      rfl
    · rw [if_neg (by rw [hcode]; exact hx), if_neg hx]
      exact ih

/-- Deleting a code removes it from lookups. -/
theorem findByCode_deleteByCode_self (db : List Link) (c : String) :
    findByCode (deleteByCode db c) c = none := by
  induction db with
  | nil => rfl
  | cons x xs ih =>
    simp only [deleteByCode, List.filter_cons] at ih ⊢
    by_cases hx : x.code = c
    · simp [hx, ih]
    · simp [hx, findByCode_cons, ih]

/-- Deleting one code leaves lookups of any other code unchanged. -/
theorem findByCode_deleteByCode_ne {c0 c : String} (h : c0 ≠ c)
    (db : List Link) :
    findByCode (deleteByCode db c0) c = findByCode db c := by
  induction db with
  | nil => rfl
  | cons x xs ih =>
    simp only [deleteByCode, List.filter_cons] at ih ⊢
    by_cases hx : x.code = c0
    · simp [hx, findByCode_cons, h, ih]
    · have hb : (x.code != c0) = true := by simp [hx]
      rw [if_pos hb, findByCode_cons, findByCode_cons]
      by_cases hxc : x.code = c
      · rw [if_pos hxc, if_pos hxc]
      · rw [if_neg hxc, if_neg hxc]
        exact ih

/-- A found row carries the looked-up code. -/
theorem findByCode_code {db : List Link} {c : String} {l : Link}
    (h : findByCode db c = some l) : l.code = c := by
  have := List.find?_some h
  simpa using this

/-- The insert attempt leaves the table unchanged or appends exactly the
new default-initialised row. -/
theorem attemptInsert_db (now id : Nat) (db : List Link)
    (code url email : String) :
    (attemptInsert now id db code url email).db = db ∨
      (attemptInsert now id db code url email).db =
        db ++ [⟨id, code, url, email, 0, none, now⟩] := by
  unfold attemptInsert insertLink
  by_cases h1 : isValidCode code
  · by_cases h2 : (findByCode db code).isSome
    · simp [h1, h2]
    · simp [h1, h2]
  · simp [h1]

/-- The only row the insert attempt ever returns is the
default-initialised row it appended. -/
theorem attemptInsert_row {now id : Nat} {db : List Link}
    {code url email : String} {l : Link}
    (h : (attemptInsert now id db code url email).row = some l) :
    l = ⟨id, code, url, email, 0, none, now⟩ := by
  unfold attemptInsert insertLink at h
  by_cases h1 : isValidCode code
  · by_cases h2 : (findByCode db code).isSome
    · simp [h1, h2] at h
    · simp [h1, h2] at h
      exact h.symm
  · simp [h1] at h

/-- The POST handler leaves the table unchanged or appends exactly one
default-initialised row. -/
theorem postLinks_db (gen : String) (now id : Nat) (db : List Link)
    (url : String) (code : Option String) (email : String) :
    (postLinks gen now id db url code email).db = db ∨
      ∃ fc, (postLinks gen now id db url code email).db =
        db ++ [⟨id, fc, url, email, 0, none, now⟩] := by
  unfold postLinks
  by_cases h1 : isValidUrl url
  · by_cases h2 : isValidEmail email
    · simp only [h1, h2, Bool.not_true, Bool.false_eq_true, if_false]
      cases hts : truthyStr code with
      | none =>
        rcases attemptInsert_db now id db gen url email with h | h
        · exact Or.inl h
        · exact Or.inr ⟨gen, h⟩
      | some c =>
        by_cases h3 : isValidCode c
        · simp only [h3, Bool.not_true, Bool.false_eq_true, if_false]
          rcases attemptInsert_db now id db c url email with h | h
          · exact Or.inl h
          · exact Or.inr ⟨c, h⟩
        · simp [h3]
    · simp [h1, h2]
  · simp [h1]

/-- The only row the POST handler ever returns carries `total_clicks = 0`
and no `last_clicked`. -/
theorem postLinks_row {gen : String} {now id : Nat} {db : List Link}
    {url : String} {code : Option String} {email : String} {l : Link}
    (h : (postLinks gen now id db url code email).row = some l) :
    l.total_clicks = 0 ∧ l.last_clicked = none := by
  unfold postLinks at h
  by_cases h1 : isValidUrl url
  · by_cases h2 : isValidEmail email
    · simp only [h1, h2, Bool.not_true, Bool.false_eq_true, if_false] at h
      cases hts : truthyStr code with
      | none =>
        rw [hts] at h
        rw [attemptInsert_row h]
        exact ⟨rfl, rfl⟩
      | some c =>
        rw [hts] at h
        by_cases h3 : isValidCode c
        · simp only [h3, Bool.not_true, Bool.false_eq_true, if_false] at h
          rw [attemptInsert_row h]
          exact ⟨rfl, rfl⟩
        · simp [h3] at h
    · simp [h1, h2] at h
  · simp [h1] at h

/-- A valid code is nonempty (so JavaScript truthiness keeps it). -/
theorem isValidCode_ne_empty {c : String} (hc : isValidCode c = true) :
    (c == "") = false := by
  cases hq : c == "" with
  | false => rfl
  | true =>
    have hce : c = "" := by simpa using hq
    rw [hce] at hc
    exact absurd hc (by decide)

/-- Every base-36 digit below 36 prints as a character of the code
alphabet (a digit or a lowercase letter). -/
theorem base36DigitChar_isCodeChar :
    ∀ d, d < 36 → isCodeChar (base36DigitChar d) = true := by
  decide

/-- For a numerator below `2 ^ 53`, every emitted fractional digit is a
code-alphabet character. -/
theorem base36FracDigits_chars :
    ∀ (fuel k : Nat), k < 2 ^ 53 →
      ∀ c ∈ base36FracDigits k fuel, isCodeChar c = true := by
  intro fuel
  induction fuel with
  | zero =>
    intro k _ c hc
    simp [base36FracDigits] at hc
  | succ n ih =>
    intro k hk c hc
    by_cases h0 : k = 0
    · simp [base36FracDigits, h0] at hc
    · simp only [base36FracDigits, h0, if_false] at hc
      rcases List.mem_cons.mp hc with rfl | hc2
      · apply base36DigitChar_isCodeChar
        have hlt : k * 36 < 36 * 2 ^ 53 := by
          have h1 : k * 36 < 2 ^ 53 * 36 :=
            (Nat.mul_lt_mul_right (by norm_num)).mpr hk
          rw [Nat.mul_comm (2 ^ 53) 36] at h1
          exact h1
        exact Nat.div_lt_of_lt_mul hlt
      · exact ih (k * 36 % 2 ^ 53) (Nat.mod_lt _ (by norm_num)) c hc2

/-- A generated code consists of code-alphabet characters only. -/
theorem genCode_chars {k : Nat} (hk : k < 2 ^ 53) :
    ∀ c ∈ (genCode k).toList, isCodeChar c = true := by
  intro c hc
  have hc1 : c ∈ ((jsToString36 k).drop 2).take 8 := hc
  have hc2 : c ∈ (jsToString36 k).drop 2 := List.mem_of_mem_take hc1
  by_cases h0 : k = 0
  · simp [jsToString36, h0] at hc2
  · simp only [jsToString36, h0, if_false, List.drop_succ_cons,
      List.drop_zero] at hc2
    exact base36FracDigits_chars 54 k hk c hc2

/-- A generated code has at most 8 characters (`slice(2, 10)`). -/
theorem genCode_length_le (k : Nat) : (genCode k).length ≤ 8 := by
  have : (genCode k).length = (((jsToString36 k).drop 2).take 8).length := rfl
  rw [this, List.length_take]
  exact Nat.min_le_left _ _

/-- Statement-level interleaving of resolution statements on one code:
however a trace of SELECTs and atomic UPDATEs on code `c` is ordered,
the row ends with its counter raised by exactly the number of UPDATE
statements in the trace — the per-statement atomic increment loses no
update — and, when there was at least one UPDATE, `last_clicked` carries
the tick of one of them. -/
theorem visit_interleaving (c : String) :
    ∀ (qs : List (Nat × Query)) (db : List Link) (l : Link),
      findByCode db c = some l →
      (∀ tq ∈ qs, isResolutionStmtOn c tq.2 = true) →
      ∃ l', findByCode (qs.foldl applyStmt db) c = some l' ∧
        l'.total_clicks = l.total_clicks + countUpdatesOn c qs ∧
        (countUpdatesOn c qs = 0 → l'.last_clicked = l.last_clicked) ∧
        (0 < countUpdatesOn c qs →
          ∃ tq ∈ qs, isUpdateOn c tq.2 = true ∧ l'.last_clicked = some tq.1) := by
  intro qs
  induction qs with
  | nil =>
    intro db l h _
    refine ⟨l, h, by simp [countUpdatesOn], fun _ => rfl, by simp [countUpdatesOn]⟩
  | cons tq qs ih =>
    intro db l h hall
    obtain ⟨t, q⟩ := tq
    have hq : isResolutionStmtOn c q = true := hall (t, q) (List.mem_cons_self _ _)
    have hall' : ∀ tq ∈ qs, isResolutionStmtOn c tq.2 = true :=
      fun x hx => hall x (List.mem_cons_of_mem _ hx)
    cases q with
    | selectTarget c1 =>
      have hcount : countUpdatesOn c ((t, Query.selectTarget c1) :: qs) =
          countUpdatesOn c qs := by
        simp [countUpdatesOn, List.countP_cons, isUpdateOn]
      obtain ⟨l', h1, h2, h3, h4⟩ := ih db l h hall'
      refine ⟨l', ?_, ?_, ?_, ?_⟩
      · exact h1
      · rw [hcount]; exact h2
      · rw [hcount]; exact h3
      · rw [hcount]
        intro hpos
        obtain ⟨x, hx, hu, hl⟩ := h4 hpos
        exact ⟨x, List.mem_cons_of_mem _ hx, hu, hl⟩
    | updateCounters c1 =>
      have hc1 : c1 = c := by simpa [isResolutionStmtOn] using hq
      subst hc1
      have hb : findByCode (bumpVisit t db c1) c1 =
          some { l with total_clicks := l.total_clicks + 1,
                        last_clicked := some t } := by
        rw [findByCode_bumpVisit, h]
        have hlc : l.code = c1 := findByCode_code h
        simp [hlc]
      obtain ⟨l', h1, h2, h3, h4⟩ := ih (bumpVisit t db c1) _ hb hall'
      have hcount : countUpdatesOn c1 ((t, Query.updateCounters c1) :: qs) =
          countUpdatesOn c1 qs + 1 := by
        simp [countUpdatesOn, List.countP_cons, isUpdateOn]
      refine ⟨l', ?_, ?_, ?_, ?_⟩
      · exact h1
      · rw [hcount]
        rw [h2]
        simp
        omega
      · rw [hcount]
        intro h0
        omega
      · intro _
        by_cases hz : countUpdatesOn c1 qs = 0
        · refine ⟨(t, Query.updateCounters c1), List.mem_cons_self _ _,
            by simp [isUpdateOn], ?_⟩
          exact h3 hz
        · obtain ⟨x, hx, hu, hl⟩ := h4 (Nat.pos_of_ne_zero hz)
          exact ⟨x, List.mem_cons_of_mem _ hx, hu, hl⟩
    | insertRow a b d =>
      simp [isResolutionStmtOn] at hq

/-! ## Claims -/

/-- **C1 (counterexample)**: resolution is *not* a single atomic store
operation.  At a concrete store holding code `"abc123"`, the redirect
handler issues two separate statements — a SELECT followed by an UPDATE —
and in the execution where a delete commits between the two, the handler
still serves a 302 while no counter update lands on any record (the
updated table is empty).  This refutes "the counter update and
destination retrieval are a single atomic store operation — resolution
never performs a separate read-then-write". -/
theorem C1_counterexample :
    (redirectHandler 9 [⟨1, "abc123", "https://example.com", "a@b.com", 7, some 3, 0⟩]
        "abc123").trace =
      [Query.selectTarget "abc123", Query.updateCounters "abc123"] ∧
    (redirectHandler 9 [⟨1, "abc123", "https://example.com", "a@b.com", 7, some 3, 0⟩]
        "abc123").trace.length ≠ 1 ∧
    (redirectExec 9 [⟨1, "abc123", "https://example.com", "a@b.com", 7, some 3, 0⟩] []
        "abc123").status = 302 ∧
    (redirectExec 9 [⟨1, "abc123", "https://example.com", "a@b.com", 7, some 3, 0⟩] []
        "abc123").db = [] := by
  refine ⟨?_, ?_, ?_, ?_⟩ <;> decide

/-- **C1 (amended)**: resolution of an existing code issues two separate
statements, a SELECT and then an UPDATE — not one atomic operation.
What does hold of the counters: each UPDATE statement is itself atomic
 (`total_clicks = total_clicks + 1` in the store), so for any
interleaving of resolution statements on an existing code with N counter
UPDATEs among them, `total_clicks` grows by exactly N with no lost
update, and when N > 0 `last_clicked` carries the tick of one of the
UPDATE statements. -/
theorem C1_amended :
    (∀ (now : Nat) (db : List Link) (c : String),
      (findByCode db c).isSome = true →
      (redirectHandler now db c).trace =
        [Query.selectTarget c, Query.updateCounters c]) ∧
    (∀ (c : String) (qs : List (Nat × Query)) (db : List Link) (l : Link),
      findByCode db c = some l →
      (∀ tq ∈ qs, isResolutionStmtOn c tq.2 = true) →
      ∃ l', findByCode (qs.foldl applyStmt db) c = some l' ∧
        l'.total_clicks = l.total_clicks + countUpdatesOn c qs ∧
        (0 < countUpdatesOn c qs →
          ∃ tq ∈ qs, isUpdateOn c tq.2 = true ∧
            l'.last_clicked = some tq.1)) := by
  constructor
  · intro now db c h
    obtain ⟨l, hl⟩ := Option.isSome_iff_exists.mp h
    unfold redirectHandler redirectExec
    rw [hl]
  · intro c qs db l h hall
    obtain ⟨l', h1, h2, _, h4⟩ := visit_interleaving c qs db l h hall
    exact ⟨l', h1, h2, h4⟩

/-- **C1 (witness)**: the amended statement at concrete inputs — the
two-statement trace on a one-row store, and a trace of two interleaved
UPDATE statements on code `"abc123"` landing both increments. -/
theorem C1_amended_witness :
    (redirectHandler 9 [⟨1, "abc123", "https://example.com", "a@b.com", 7, some 3, 0⟩]
        "abc123").trace =
      [Query.selectTarget "abc123", Query.updateCounters "abc123"] ∧
    (∃ l', findByCode
        ([((3 : Nat), Query.updateCounters "abc123"),
          ((7 : Nat), Query.updateCounters "abc123")].foldl applyStmt
          [⟨1, "abc123", "https://example.com", "a@b.com", 0, none, 0⟩]) "abc123" =
          some l' ∧
      l'.total_clicks = 0 + countUpdatesOn "abc123"
          [((3 : Nat), Query.updateCounters "abc123"),
           ((7 : Nat), Query.updateCounters "abc123")] ∧
      (0 < countUpdatesOn "abc123"
          [((3 : Nat), Query.updateCounters "abc123"),
           ((7 : Nat), Query.updateCounters "abc123")] →
        ∃ tq ∈ [((3 : Nat), Query.updateCounters "abc123"),
                ((7 : Nat), Query.updateCounters "abc123")],
          isUpdateOn "abc123" tq.2 = true ∧ l'.last_clicked = some tq.1)) :=
  ⟨C1_amended.1 9 [⟨1, "abc123", "https://example.com", "a@b.com", 7, some 3, 0⟩]
      "abc123" (by decide),
   C1_amended.2 "abc123"
      [((3 : Nat), Query.updateCounters "abc123"),
       ((7 : Nat), Query.updateCounters "abc123")]
      [⟨1, "abc123", "https://example.com", "a@b.com", 0, none, 0⟩]
      ⟨1, "abc123", "https://example.com", "a@b.com", 0, none, 0⟩
      (by decide) (by decide)⟩

/-- **C2 (counterexample)**: when the store already holds the generated
candidate, the POST handler makes exactly one insert attempt and fails
with the 409 conflict error — it does not generate a new candidate, does
not retry, and does not fail with a capacity/exhaustion error.  This
refutes "allocate generates a new candidate and retries, with retries
bounded by a small fixed cap, after which it fails with a
capacity/exhaustion error". -/
theorem C2_counterexample :
    (postLinks "aaaaaaaa" 5 2
        [⟨1, "aaaaaaaa", "https://example.com", "a@b.com", 0, none, 0⟩]
        "https://example.com" none "a@b.com").status = 409 ∧
    (postLinks "aaaaaaaa" 5 2
        [⟨1, "aaaaaaaa", "https://example.com", "a@b.com", 0, none, 0⟩]
        "https://example.com" none "a@b.com").trace =
      [Query.insertRow "aaaaaaaa" "https://example.com" "a@b.com"] ∧
    (postLinks "aaaaaaaa" 5 2
        [⟨1, "aaaaaaaa", "https://example.com", "a@b.com", 0, none, 0⟩]
        "https://example.com" none "a@b.com").trace.length = 1 := by
  refine ⟨?_, ?_, ?_⟩ <;> decide

/-- **C2 (amended)**: on a duplicate-code failure for a generated
candidate the handler does not retry: it issues exactly one INSERT and
fails immediately with the same 409 conflict response used for explicit
codes, leaving the store unchanged. -/
theorem C2_generated_conflict_no_retry (gen : String) (now id : Nat)
    (db : List Link) (url email : String) (hu : isValidUrl url = true)
    (he : isValidEmail email = true) (hg : isValidCode gen = true)
    (hdup : (findByCode db gen).isSome = true) :
    postLinks gen now id db url none email =
      ⟨409, none, some "Custom code already in use", db,
        [Query.insertRow gen url email]⟩ := by
  simp [postLinks, truthyStr, attemptInsert, insertLink, hu, he, hg, hdup]

/-- **C2 (witness)**: the amended statement at a concrete store already
holding the generated candidate `"aaaaaaaa"`. -/
theorem C2_generated_conflict_no_retry_witness :
    postLinks "aaaaaaaa" 5 2
        [⟨1, "aaaaaaaa", "https://example.com", "a@b.com", 0, none, 0⟩]
        "https://example.com" none "a@b.com" =
      ⟨409, none, some "Custom code already in use",
        [⟨1, "aaaaaaaa", "https://example.com", "a@b.com", 0, none, 0⟩],
        [Query.insertRow "aaaaaaaa" "https://example.com" "a@b.com"]⟩ :=
  C2_generated_conflict_no_retry "aaaaaaaa" 5 2
    [⟨1, "aaaaaaaa", "https://example.com", "a@b.com", 0, none, 0⟩]
    "https://example.com" "a@b.com" (by decide) (by decide) (by decide)
    (by decide)

/-- **C3 (counterexample)**: the generator does not always satisfy the
validator's contract.  `Math.random()` can return `0.5` (numerator
`2 ^ 52` over `2 ^ 53`); `(0.5).toString(36)` is `"0.i"`, so
`slice(2, 10)` yields the 1-character string `"i"`, which `isValidCode`
rejects; it can also return `0`, whose `toString(36)` is `"0"`, yielding
the empty string. -/
theorem C3_counterexample :
    genCode (2 ^ 52) = "i" ∧
    isValidCode (genCode (2 ^ 52)) = false ∧
    2 ^ 52 < 2 ^ 53 ∧
    genCode 0 = "" ∧
    isValidCode (genCode 0) = false := by
  refine ⟨?_, ?_, ?_, ?_, ?_⟩ <;> decide

/-- **C3 (amended)**: for every random value `k / 2 ^ 53`, the generated
code has at most 8 characters, every character lies in the code alphabet
`[A-Za-z0-9]` (indeed in `[0-9a-z]`), and whenever the generated code
reaches 6 characters it satisfies the validator's contract.  Codes
shorter than 6 characters (possible, per the counterexample) violate the
contract, so "for every invocation" fails while the typical case holds. -/
theorem C3_generated_code_contract (k : Nat) (hk : k < 2 ^ 53) :
    (genCode k).length ≤ 8 ∧
    (∀ c ∈ (genCode k).toList, isCodeChar c = true) ∧
    (6 ≤ (genCode k).length → isValidCode (genCode k) = true) := by
  refine ⟨genCode_length_le k, genCode_chars hk, fun h6 => ?_⟩
  exact (isValidCode_iff _).mpr ⟨h6, genCode_length_le k, genCode_chars hk⟩

/-- **C3 (witness)**: the amended statement at `k = 1`, where the
generated code is `"00000000"` — 8 characters, all in the alphabet,
accepted by the validator. -/
theorem C3_generated_code_contract_witness :
    1 < 2 ^ 53 ∧ genCode 1 = "00000000" ∧
    isValidCode (genCode 1) = true :=
  ⟨by decide, by decide, (C3_generated_code_contract 1 (by decide)).2.2 (by decide)⟩

/-- **C4**: `validate(c)` is true iff `c` has 6 to 8 characters, each an
ASCII letter or digit (`^[A-Za-z0-9]{6,8}$`); every other string is
rejected — in particular the empty string, a too-long string, and strings
containing `-`, `_`, a space, or a non-ASCII character. -/
theorem C4_isValidCode_spec :
    (∀ s : String, isValidCode s = true ↔
      6 ≤ s.length ∧ s.length ≤ 8 ∧ ∀ c ∈ s.toList, isCodeChar c = true) ∧
    isValidCode "" = false ∧
    isValidCode "abcd12345" = false ∧
    isValidCode "abc-12" = false ∧
    isValidCode "abc_12" = false ∧
    isValidCode "abc 12" = false ∧
    isValidCode "abcé12" = false := by
  refine ⟨isValidCode_iff, ?_, ?_, ?_, ?_, ?_, ?_⟩ <;> decide

/-- **C5 (counterexample)**: an empty requested code is falsy in
JavaScript, so the handler does not validate it and does not fail — it
auto-generates a code and inserts: HTTP 201, a row appended, an INSERT
issued.  This refutes "allocate fails with ValidationError before any
store mutation — for every malformed supplied string, including the
empty string" (the empty string is malformed: `isValidCode "" = false`). -/
theorem C5_counterexample :
    isValidCode "" = false ∧
    (postLinks "aaaaaaaa" 5 1 [] "https://example.com" (some "")
        "a@b.com").status = 201 ∧
    (postLinks "aaaaaaaa" 5 1 [] "https://example.com" (some "")
        "a@b.com").db =
      [⟨1, "aaaaaaaa", "https://example.com", "a@b.com", 0, none, 5⟩] ∧
    (postLinks "aaaaaaaa" 5 1 [] "https://example.com" (some "")
        "a@b.com").trace =
      [Query.insertRow "aaaaaaaa" "https://example.com" "a@b.com"] := by
  refine ⟨?_, ?_, ?_, ?_⟩ <;> decide

/-- **C5 (amended)**: for every *nonempty* malformed requested code the
handler fails with a 400 validation response before any store mutation:
the table is unchanged and no SQL statement was issued.  (The empty
string is instead treated as absent and a code is auto-generated.) -/
theorem C5_invalid_code_rejected (gen : String) (now id : Nat)
    (db : List Link) (url email c : String) (hne : c ≠ "")
    (hbad : isValidCode c = false) :
    (postLinks gen now id db url (some c) email).status = 400 ∧
    (postLinks gen now id db url (some c) email).db = db ∧
    (postLinks gen now id db url (some c) email).trace = [] := by
  have hne2 : (c == "") = false := by simpa using hne
  unfold postLinks
  by_cases hu : isValidUrl url
  · by_cases he : isValidEmail email
    · simp [hu, he, truthyStr, hne2, hbad]
    · simp [hu, he]
  · simp [hu]

/-- **C5 (witness)**: the amended statement for the malformed nonempty
code `"ab-12"` against a concrete store. -/
theorem C5_invalid_code_rejected_witness :
    ((postLinks "aaaaaaaa" 5 1
        [⟨1, "abc123", "https://example.com", "a@b.com", 0, none, 0⟩]
        "https://example.com" (some "ab-12") "a@b.com").status = 400 ∧
     (postLinks "aaaaaaaa" 5 1
        [⟨1, "abc123", "https://example.com", "a@b.com", 0, none, 0⟩]
        "https://example.com" (some "ab-12") "a@b.com").db =
       [⟨1, "abc123", "https://example.com", "a@b.com", 0, none, 0⟩] ∧
     (postLinks "aaaaaaaa" 5 1
        [⟨1, "abc123", "https://example.com", "a@b.com", 0, none, 0⟩]
        "https://example.com" (some "ab-12") "a@b.com").trace = []) :=
  C5_invalid_code_rejected "aaaaaaaa" 5 1
    [⟨1, "abc123", "https://example.com", "a@b.com", 0, none, 0⟩]
    "https://example.com" "a@b.com" "ab-12" (by decide) (by decide)

/-- **C6**: requesting a well-formed code that already exists makes the
handler fail with HTTP 409 after exactly one INSERT attempt carrying the
requested code — no retry, no substituted code — and leaves the store
 (in particular the first record) unchanged. -/
theorem C6_explicit_conflict (gen : String) (now id : Nat)
    (db : List Link) (url email c : String) (hu : isValidUrl url = true)
    (he : isValidEmail email = true) (hc : isValidCode c = true)
    (hdup : (findByCode db c).isSome = true) :
    postLinks gen now id db url (some c) email =
      ⟨409, none, some "Custom code already in use", db,
        [Query.insertRow c url email]⟩ := by
  have hne := isValidCode_ne_empty hc
  simp [postLinks, truthyStr, attemptInsert, insertLink, hu, he, hne, hc, hdup]

/-- **C6 (witness)**: the claim's scenario — create with explicit code
`"abc123"`, then create again with the same explicit code: the second
call fails with 409 and the record of the first call is unchanged. -/
theorem C6_explicit_conflict_witness :
    (postLinks "zzzzzzzz" 0 1 [] "https://example.com" (some "abc123")
        "a@b.com").db =
      [⟨1, "abc123", "https://example.com", "a@b.com", 0, none, 0⟩] ∧
    postLinks "zzzzzzzz" 5 2
        [⟨1, "abc123", "https://example.com", "a@b.com", 0, none, 0⟩]
        "https://example.com" (some "abc123") "a@b.com" =
      ⟨409, none, some "Custom code already in use",
        [⟨1, "abc123", "https://example.com", "a@b.com", 0, none, 0⟩],
        [Query.insertRow "abc123" "https://example.com" "a@b.com"]⟩ :=
  ⟨by decide,
   C6_explicit_conflict "zzzzzzzz" 5 2
     [⟨1, "abc123", "https://example.com", "a@b.com", 0, none, 0⟩]
     "https://example.com" "a@b.com" "abc123" (by decide) (by decide)
     (by decide) (by decide)⟩

/-- **C7**: `total_clicks` starts at 0 (and `last_clicked` absent) on
every row a creation returns; it never decreases across any operation of
the lifecycle (creation, visit, deletion); and a successful redirect
increments it by exactly 1 while stamping `last_clicked`. -/
theorem C7_totalClicks_invariant :
    (∀ (gen : String) (now id : Nat) (db : List Link) (url : String)
        (code : Option String) (email : String) (l : Link),
      (postLinks gen now id db url code email).row = some l →
      l.total_clicks = 0 ∧ l.last_clicked = none) ∧
    (∀ (db : List Link) (op : Op) (c : String) (l l2 : Link),
      findByCode db c = some l → findByCode (applyOp db op) c = some l2 →
      l.total_clicks ≤ l2.total_clicks) ∧
    (∀ (now : Nat) (db : List Link) (c : String) (l : Link),
      findByCode db c = some l →
      (redirectHandler now db c).status = 302 ∧
      findByCode (redirectHandler now db c).db c =
        some { l with total_clicks := l.total_clicks + 1,
                      last_clicked := some now }) := by
  refine ⟨?_, ?_, ?_⟩
  · intro gen now id db url code email l h
    exact postLinks_row h
  · intro db op c l l2 hl hl2
    cases op with
    | create gen now id url code email =>
      simp only [applyOp] at hl2
      rcases postLinks_db gen now id db url code email with h | ⟨fc, h⟩
      · rw [h, hl] at hl2
        cases hl2
        exact Nat.le_refl _
      · rw [h, findByCode_append_of_some hl] at hl2
        cases hl2
        exact Nat.le_refl _
    | visit now code =>
      simp only [applyOp, redirectHandler, redirectExec] at hl2
      cases hf : findByCode db code with
      | none =>
        rw [hf] at hl2
        rw [hl] at hl2
        cases hl2
        exact Nat.le_refl _
      | some l0 =>
        rw [hf] at hl2
        rw [findByCode_bumpVisit, hl] at hl2
        simp only [Option.map_some'] at hl2
        by_cases hlc : l.code == code
        · rw [if_pos hlc] at hl2
          cases hl2
          exact Nat.le_succ _
        · rw [if_neg hlc] at hl2
          cases hl2
          exact Nat.le_refl _
    | remove code =>
      simp only [applyOp] at hl2
      by_cases hcc : code = c
      · subst hcc
        rw [findByCode_deleteByCode_self] at hl2
        cases hl2
      · rw [findByCode_deleteByCode_ne hcc] at hl2
        rw [hl] at hl2
        cases hl2
        exact Nat.le_refl _
  · intro now db c l h
    unfold redirectHandler redirectExec
    rw [h]
    refine ⟨rfl, ?_⟩
    rw [findByCode_bumpVisit, h]
    have hlc : l.code = c := findByCode_code h
    simp [hlc]

/-- **C7 (witness)**: the three parts at concrete inputs: a creation
returning a zero-counter row, monotonicity across a concrete visit, and
a concrete redirect incrementing by exactly 1. -/
theorem C7_totalClicks_invariant_witness :
    ((postLinks "aaaaaaaa" 5 1 [] "https://example.com" none
        "a@b.com").row = some ⟨1, "aaaaaaaa", "https://example.com",
          "a@b.com", 0, none, 5⟩ ∧
      (0 : Nat) = 0 ∧ (none : Option Nat) = none) ∧
    ((⟨1, "abc123", "https://example.com", "a@b.com", 4, none, 0⟩ :
        Link).total_clicks ≤
      (⟨1, "abc123", "https://example.com", "a@b.com", 5, some 9, 0⟩ :
        Link).total_clicks) ∧
    ((redirectHandler 9
        [⟨1, "abc123", "https://example.com", "a@b.com", 4, none, 0⟩]
        "abc123").status = 302 ∧
      findByCode (redirectHandler 9
        [⟨1, "abc123", "https://example.com", "a@b.com", 4, none, 0⟩]
        "abc123").db "abc123" =
        some ⟨1, "abc123", "https://example.com", "a@b.com", 5, some 9, 0⟩) :=
  ⟨⟨by decide,
    (C7_totalClicks_invariant.1 "aaaaaaaa" 5 1 [] "https://example.com" none
      "a@b.com" ⟨1, "aaaaaaaa", "https://example.com", "a@b.com", 0, none, 5⟩
      (by decide)).1 ▸ rfl,
    (C7_totalClicks_invariant.1 "aaaaaaaa" 5 1 [] "https://example.com" none
      "a@b.com" ⟨1, "aaaaaaaa", "https://example.com", "a@b.com", 0, none, 5⟩
      (by decide)).2 ▸ rfl⟩,
   C7_totalClicks_invariant.2.1
     [⟨1, "abc123", "https://example.com", "a@b.com", 4, none, 0⟩]
     (Op.visit 9 "abc123") "abc123"
     ⟨1, "abc123", "https://example.com", "a@b.com", 4, none, 0⟩
     ⟨1, "abc123", "https://example.com", "a@b.com", 5, some 9, 0⟩
     (by decide) (by decide),
   C7_totalClicks_invariant.2.2 9
     [⟨1, "abc123", "https://example.com", "a@b.com", 4, none, 0⟩]
     "abc123" ⟨1, "abc123", "https://example.com", "a@b.com", 4, none, 0⟩
     (by decide)⟩

/-- **C8**: resolving a code that is not in the store answers 404 and
causes no state change — the table is returned untouched and only the
SELECT statement was issued. -/
theorem C8_resolve_not_found (now : Nat) (db : List Link) (c : String)
    (h : findByCode db c = none) :
    redirectHandler now db c = ⟨404, none, db, [Query.selectTarget c]⟩ := by
  unfold redirectHandler redirectExec
  rw [h]

/-- **C8 (witness)**: resolving `"nosuch1"` against a concrete one-row
store. -/
theorem C8_resolve_not_found_witness :
    redirectHandler 3
        [⟨1, "abc123", "https://example.com", "a@b.com", 0, none, 0⟩]
        "nosuch1" =
      ⟨404, none,
        [⟨1, "abc123", "https://example.com", "a@b.com", 0, none, 0⟩],
        [Query.selectTarget "nosuch1"]⟩ :=
  C8_resolve_not_found 3
    [⟨1, "abc123", "https://example.com", "a@b.com", 0, none, 0⟩]
    "nosuch1" (by decide)

/-- **C9 (counterexample)**: the exposed record field names are not the
claimed list — the responses also expose `id`, and the counter and
timestamp fields are exposed under their snake_case column names
 (`total_clicks`, `last_clicked`, `created_at`), not `totalClicks`,
`lastClicked`, `createdAt`. -/
theorem C9_counterexample :
    returningColumnsPost ≠ specClaimedColumns ∧
    "id" ∈ returningColumnsPost ∧
    "id" ∉ specClaimedColumns ∧
    "totalClicks" ∈ specClaimedColumns ∧
    "totalClicks" ∉ returningColumnsPost ∧
    (selectRow ⟨1, "abc123", "https://example.com", "a@b.com", 0, none,
      0⟩).map Prod.fst ≠ specClaimedColumns := by
  refine ⟨?_, ?_, ?_, ?_, ?_, ?_⟩ <;> decide

/-- **C9 (amended)**: every row exposed at the HTTP boundary (creation
RETURNING, listing SELECT, detail SELECT — all three share one output
column list) carries exactly the field names `id`, `code`, `url`,
`email`, `total_clicks`, `last_clicked`, `created_at`. -/
theorem C9_exposed_columns :
    (∀ l : Link, (selectRow l).map Prod.fst = returningColumnsPost) ∧
    returningColumnsPost = selectColumnsListing ∧
    selectColumnsListing = selectColumnsDetail ∧
    returningColumnsPost =
      ["id", "code", "url", "email", "total_clicks", "last_clicked",
       "created_at"] :=
  ⟨fun _ => rfl, rfl, rfl, rfl⟩

/-- **C10**: a listing request without an email query parameter returns
every link in the store — a permutation of the whole table, across all
owners — ordered by `created_at` descending. -/
theorem C10_listing_without_email (db : List Link) :
    (getLinks none db).Perm db ∧ (getLinks none db).Sorted createdDesc := by
  constructor
  · exact List.perm_insertionSort createdDesc db
  · exact List.sorted_insertionSort createdDesc db
